import Mathlib

/-!
Shallow embedding of the core of `background.js` (HH Return Label Queue):
job queue retry/backoff policy, eligibility selection, label de-duplication,
the storage-backed lock, the capture-attempt registry, the capture retry
sequence, and the batch print assembler.  Each definition mirrors one
source function; theorems settle the spec claims C1..C10.
-/

/-- Job status, as the string statuses of `background.js`
(`pending`, `processing`, `retry`, `failed`). -/
inductive Status where
  | pending
  | processing
  | retry
  | failed
deriving DecidableEq, Repr

/-- A queued job record (`hh_jobs_v1` entries): only the fields the
processor's policy reads.  `nextAt` is `none` when the field is absent;
the code reads it as `(j.nextAt || 0)`. -/
structure Job where
  jobId : Nat
  status : Status
  tries : Nat
  nextAt : Option Nat
deriving DecidableEq, Repr

/-- A captured label record (`hh_labels_v1` entries). -/
structure Label where
  demoOrder : String
  orderNumber : Option String
  url : String
deriving DecidableEq, Repr

/-- `pushLabel` (background.js:156-165): append unless some queued label
already has the same `demoOrder`. -/
def pushLabel (labels : List Label) (item : Label) : List Label :=
  match labels.find? (fun x => x.demoOrder == item.demoOrder) with
  | some _ => labels
  | none => labels ++ [item]

/-- The failure branch of `runProcessor` (background.js:341-352) applied to
one job: increment `tries`; at `MAX_TRIES = 3` mark `failed` (no `nextAt`
update), otherwise schedule a retry with backoff
`min(30000, 1000 * 2^tries)` from the failure time `now`. -/
def applyFailure (j : Job) (now : Nat) : Job :=
  let tries := j.tries + 1
  if 3 ≤ tries then
    { j with status := Status.failed, tries := tries }
  else
    { j with status := Status.retry, tries := tries,
             nextAt := some (now + min 30000 (1000 * 2 ^ tries)) }

/-- The queue-level failure handler (background.js:338-354): re-read the
queue, locate the job by id, re-write it through `applyFailure`; a job no
longer present is left alone. -/
def markFailure (jobs : List Job) (jobId : Nat) (now : Nat) : List Job :=
  match jobs.findIdx? (fun j => j.jobId == jobId) with
  | none => jobs
  | some pos =>
    jobs.set pos (applyFailure (jobs.getD pos (Job.mk 0 Status.pending 0 none)) now)

/-- The selection predicate of `runProcessor` (background.js:304):
`(j.status === 'pending' || j.status === 'retry') && (j.nextAt || 0) <= now`. -/
def eligibleJob (j : Job) (now : Nat) : Bool :=
  (j.status == Status.pending || j.status == Status.retry) && (j.nextAt.getD 0 ≤ now)

/-- `findIndex` over the queue with the eligibility predicate
(background.js:304), returning the selected job. -/
def selectNextEligible (jobs : List Job) (now : Nat) : Option Job :=
  jobs.find? (fun j => eligibleJob j now)

/-- What one iteration of the processor loop decides to do
(background.js:304-310): `idx === -1` breaks the loop, otherwise the
selected job is processed. -/
inductive LoopAct where
  | stop
  | process (j : Job)
deriving DecidableEq, Repr

/-- The head of each `runProcessor` loop iteration: select or break. -/
def processorChoice (jobs : List Job) (now : Nat) : LoopAct :=
  match selectNextEligible jobs now with
  | none => LoopAct.stop
  | some j => LoopAct.process j

/-- One write to the storage-backed lock record (`hh_jobs_lock_v1`). -/
structure LockWrite where
  locked : Bool
  ts : Nat
deriving DecidableEq, Repr

/-- `withLock` (background.js:215-232), modelled as the ordered list of
writes it performs on the lock record, whether the critical section ran,
and what `withLock` itself returns to its caller.  `now` is `Date.now()`
at entry, `endTs` is `Date.now()` at release, `body` is the critical
section's outcome.  The busy test `(now - curr.ts) < 15000` uses truncated
subtraction; a record with `ts > now` is busy both here (0 < 15000) and in
the source (a negative number is `< 15000`). -/
def withLock (now endTs : Nat) (curr : LockWrite) (body : Except String Unit) :
    List LockWrite × Bool × Except String Unit :=
  if curr.locked && decide (now - curr.ts < 15000) then
    ([], false, Except.ok ())
  else
    match body with
    | Except.ok _ =>
      ([LockWrite.mk true now, LockWrite.mk false endTs], true, Except.ok ())
    | Except.error _ =>
      -- the error is caught and logged; the `finally` still releases
      ([LockWrite.mk true now, LockWrite.mk false endTs], true, Except.ok ())

/-- `pat` is a leading segment of `s` (character lists). -/
def startsWithL : List Char → List Char → Bool
  | _, [] => true
  | [], _ :: _ => false
  | c :: s, p :: ps => c == p && startsWithL s ps

/-- JavaScript `s.includes(pat)` on character lists: `pat` occurs
contiguously somewhere in `s`. -/
def containsL : List Char → List Char → Bool
  | [], pat => pat.isEmpty
  | c :: t, pat => startsWithL (c :: t) pat || containsL t pat

/-- JavaScript `s.endsWith(pat)` on character lists. -/
def endsWithL (s pat : List Char) : Bool :=
  startsWithL s.reverse pat.reverse

/-- `looksLikePdf` (background.js:170-173): lower-case the URL and accept
it when it ends with `.pdf` or mentions `pdf=`, `/pdf/` or `label`.
Strings are handled as their character lists; `toLowerCase` is per-char
lowering (the URLs involved are ASCII). -/
def looksLikePdf (url : String) : Bool :=
  let u := url.data.map Char.toLower
  endsWithL u ".pdf".data || containsL u "pdf=".data ||
    containsL u "/pdf/".data || containsL u "label".data

/-- What one `attemptOnce` resolves with (background.js:467-482):
an optional captured URL and whether a navigation was observed. -/
structure AttemptResult where
  url : Option String
  navigation : Bool
deriving DecidableEq, Repr

/-- The collaborator-call step of `attemptOnce` (background.js:473-479):
if `chrome.tabs.sendMessage` throws, the attempt resolves immediately as
`{url: null, navigation: true}`; otherwise the attempt resolves with
whatever the signal race / timeout produces (`signal`). -/
def attemptOnce (sendMessageFails : Bool) (signal : AttemptResult) : AttemptResult :=
  if sendMessageFails then AttemptResult.mk none true else signal

/-- The attempt loop of `openLabelAndCapturePdf` (background.js:449-465)
over a list of deadlines, with `oracle d` the result `attemptOnce` resolves
with at deadline `d`.  Returns the captured URL (if any) together with the
list of deadlines actually attempted, in order. -/
def captureLoop (oracle : Nat → AttemptResult) : List Nat → Option String × List Nat
  | [] => (none, [])
  | d :: rest =>
    let r := oracle d
    match r.url with
    | some u => (some u, [d])
    | none =>
      if r.navigation then (none, [d])
      else
        let res := captureLoop oracle rest
        (res.1, d :: res.2)

/-- The fixed escalating deadline sequence of `openLabelAndCapturePdf`
(background.js:450). -/
def delaysList : List Nat := [1500, 3000, 6000, 10000, 15000]

/-- `openLabelAndCapturePdf` (background.js:449-465): run the attempt loop
over the fixed deadlines. -/
def openLabelAndCapturePdf (oracle : Nat → AttemptResult) : Option String × List Nat :=
  captureLoop oracle delaysList

/-- Outcome of `printAllMerged` (background.js:485-562): the merged page
sequence (a PDF is abstracted as its list of pages), the `demoOrder`s whose
fetch failed, whether the print render path (temp tab + injected iframe)
was invoked, and the label queue afterwards. -/
structure PrintResult where
  mergedPages : Option (List Nat)
  failures : List String
  printInvoked : Bool
  queueAfter : List Label
deriving DecidableEq, Repr

/-- `printAllMerged` (background.js:485-562).  `fetch u` is `some pages`
when fetching and loading the PDF at `u` succeeds, `none` on a thrown fetch
or a non-ok response.  `renderOk` is false when the merge/print `try` block
throws (or PDFLib is unavailable), in which case the queue is left intact.
On the success path the queue is cleared (after the grace delay) only once
the print render was invoked. -/
def printAllMerged (fetch : String → Option (List Nat)) (renderOk : Bool)
    (queue : List Label) : PrintResult :=
  if queue.isEmpty then
    PrintResult.mk none [] false queue
  else
    let failures := queue.filterMap
      (fun it => if (fetch it.url).isNone then some it.demoOrder else none)
    let pdfBuffers := queue.filterMap (fun it => fetch it.url)
    if pdfBuffers.isEmpty then
      PrintResult.mk none failures false queue
    else if renderOk then
      PrintResult.mk (some pdfBuffers.flatten) failures true []
    else
      PrintResult.mk none failures false queue

/-- The state of one logical capture attempt in the `expecting` registry
(background.js:168): the alias tab ids currently registered and pointing at
this attempt (`info.tabIds`, kept in sync with the `expecting` map keys),
the `until` deadline field, the navigation flag, whether the record carries
a `resolve` callback (`attemptOnce` attempts do, `EXPECT_PDF` attempts do
not), how many times the attempt's completion has been resolved, and
whether the `attemptOnce` timer is cleared/fired/absent. -/
structure Attempt where
  tabIds : List Nat
  untilTs : Nat
  navigation : Bool
  hasResolve : Bool
  resolveCount : Nat
  timerCleared : Bool
deriving DecidableEq, Repr

/-- `resolvePdfForTab` (background.js:207-212) restricted to this attempt:
if `tabId` is registered, delete every alias from the registry and invoke
`info.resolve` (which clears the timer) — for an `EXPECT_PDF` record the
`resolve` field is undefined, the call throws and is swallowed, so no
completion is counted. -/
def resolveTab (tabId : Nat) (a : Attempt) : Attempt :=
  if tabId ∈ a.tabIds then
    { a with tabIds := [],
             resolveCount := a.resolveCount + (if a.hasResolve then 1 else 0),
             timerCleared := a.timerCleared || a.hasResolve }
  else a

/-- The events that can touch one capture attempt. -/
inductive Ev where
  /-- `PDF_CANDIDATE_URL` message handled by `handlePdfCandidate`
  (background.js:175-183, 267-271); `url` is `none` for a falsy url. -/
  | candidate (tabId : Nat) (url : Option String)
  /-- `webNavigation.onCreatedNavigationTarget` (background.js:185-195). -/
  | navTarget (sourceTabId tabId : Nat) (url : String)
  /-- `tabs.onUpdated` (background.js:197-205); `changeUrl` is `none` when
  `changeInfo.url` is absent. -/
  | updated (tabId : Nat) (changeUrl : Option String)
  /-- The `attemptOnce` `setTimeout` firing (background.js:480). -/
  | timeout
  /-- An `EXPECT_PDF` message for an already-registered tab
  (background.js:261): only refreshes `until`. -/
  | expectAgain (tabId : Nat) (now : Nat)
  /-- A later `attemptOnce` on `tabId` re-pointing / cleaning its registry
  entry (background.js:471-472): `tabId` no longer aliases this attempt. -/
  | cleanupTab (tabId : Nat)
deriving DecidableEq, Repr

/-- One event step on one capture attempt, following the handlers of
background.js. -/
def step (e : Ev) (a : Attempt) : Attempt :=
  match e with
  | Ev.candidate tabId url =>
    let a1 := if tabId ∈ a.tabIds then { a with navigation := true } else a
    match url with
    | none => a1
    | some u => if looksLikePdf u then resolveTab tabId a1 else a1
  | Ev.navTarget src newTab u =>
    if src ∈ a.tabIds then
      let a1 := { a with navigation := true,
                         tabIds := if newTab ∈ a.tabIds then a.tabIds
                                   else a.tabIds ++ [newTab] }
      if looksLikePdf u then resolveTab src a1 else a1
    else a
  | Ev.updated tabId changeUrl =>
    if tabId ∈ a.tabIds then
      match changeUrl with
      | none => a
      | some u =>
        let a1 := { a with navigation := true }
        if looksLikePdf u then resolveTab tabId a1 else a1
    else a
  | Ev.timeout =>
    if a.timerCleared then a
    else { a with tabIds := [], resolveCount := a.resolveCount + 1, timerCleared := true }
  | Ev.expectAgain tabId now =>
    if tabId ∈ a.tabIds then { a with untilTs := now + 45000 } else a
  | Ev.cleanupTab tabId =>
    { a with tabIds := a.tabIds.filter (fun id => id != tabId) }

/-- Run a list of events over an attempt state. -/
def run (evs : List Ev) (a : Attempt) : Attempt :=
  evs.foldl (fun s e => step e s) a

/-- The attempt record created by `attemptOnce` (background.js:469-472):
registered for the worker tab, with a live timer and a resolve callback. -/
def attemptInit (tabId delay now : Nat) : Attempt :=
  Attempt.mk [tabId] (now + delay) false true 0 false

/-- The attempt record created by the `EXPECT_PDF` handler for a fresh tab
(background.js:262): no `resolve` callback and no timer. -/
def expectInit (tabId now : Nat) : Attempt :=
  Attempt.mk [tabId] (now + 45000) false false 0 true

/-- Every field of an attempt except `until` (called `untilTs` here, `until` being reserved), as a tuple. -/
def attemptCore (a : Attempt) : List Nat × Bool × Bool × Nat × Bool :=
  (a.tabIds, a.navigation, a.hasResolve, a.resolveCount, a.timerCleared)

/-- Two attempt states that agree on everything but `until`. -/
def sameModUntil (a b : Attempt) : Prop :=
  attemptCore a = attemptCore b

/-- The event is a PDF-like candidate report hitting an alias tab of the
attempt — the only signal shape that deregisters aliases. -/
def removesByPdf (e : Ev) (a : Attempt) : Prop :=
  match e with
  | Ev.candidate tabId (some u) => tabId ∈ a.tabIds ∧ looksLikePdf u = true
  | Ev.navTarget src _ u => src ∈ a.tabIds ∧ looksLikePdf u = true
  | Ev.updated tabId (some u) => tabId ∈ a.tabIds ∧ looksLikePdf u = true
  | _ => False

/-- The resolution invariant of one capture attempt: the completion has
fired at most once, and once it has fired every alias is deregistered and
the timer is cleared. -/
def attemptInv (a : Attempt) : Prop :=
  a.resolveCount ≤ 1 ∧ (1 ≤ a.resolveCount → a.tabIds = [] ∧ a.timerCleared = true)

theorem resolveTab_inv (t : Nat) (a : Attempt) (h : attemptInv a) :
    attemptInv (resolveTab t a) := by
  unfold resolveTab
  split
  · rename_i hmem
    have hc0 : a.resolveCount = 0 := by
      by_contra hne
      have h1 : 1 ≤ a.resolveCount := Nat.one_le_iff_ne_zero.mpr hne
      rw [(h.2 h1).1] at hmem
      simp at hmem
    cases hr : a.hasResolve <;> simp [attemptInv, hc0, hr]
  · exact h

/-- If the attempt has not resolved yet and an alias is still registered,
its completion count is zero. -/
theorem count_zero_of_mem (a : Attempt) (t : Nat) (h : attemptInv a)
    (hmem : t ∈ a.tabIds) : a.resolveCount = 0 := by
  by_contra hne
  have h1 : 1 ≤ a.resolveCount := Nat.one_le_iff_ne_zero.mpr hne
  rw [(h.2 h1).1] at hmem
  simp at hmem

theorem step_inv (e : Ev) (a : Attempt) (h : attemptInv a) : attemptInv (step e a) := by
  cases e with
  | candidate t url =>
    have hnav : attemptInv (if t ∈ a.tabIds then { a with navigation := true } else a) := by
      by_cases hm : t ∈ a.tabIds
      · simpa [hm, attemptInv] using h
      · simpa [hm] using h
    cases url with
    | none => simpa [step] using hnav
    | some u =>
      by_cases hp : looksLikePdf u = true
      · simpa [step, hp] using resolveTab_inv t _ hnav
      · simpa [step, hp] using hnav
  | navTarget src nt u =>
    by_cases hm : src ∈ a.tabIds
    · have hc0 := count_zero_of_mem a src h hm
      have hinv1 : attemptInv
          { a with navigation := true,
                   tabIds := if nt ∈ a.tabIds then a.tabIds else a.tabIds ++ [nt] } := by
        constructor
        · simpa using h.1
        · intro h1
          simp [hc0] at h1
      by_cases hp : looksLikePdf u = true
      · simpa [step, hm, hp] using resolveTab_inv src _ hinv1
      · simpa [step, hm, hp] using hinv1
    · simpa [step, hm] using h
  | updated t url =>
    by_cases hm : t ∈ a.tabIds
    · cases url with
      | none => simpa [step, hm] using h
      | some u =>
        have hnav : attemptInv { a with navigation := true } := by
          simpa [attemptInv] using h
        by_cases hp : looksLikePdf u = true
        · simpa [step, hm, hp] using resolveTab_inv t _ hnav
        · simpa [step, hm, hp] using hnav
    · simpa [step, hm] using h
  | timeout =>
    by_cases htc : a.timerCleared = true
    · simpa [step, htc] using h
    · have hc0 : a.resolveCount = 0 := by
        by_contra hne
        exact htc (h.2 (Nat.one_le_iff_ne_zero.mpr hne)).2
      simp [step, htc, attemptInv, hc0]
  | expectAgain t now =>
    by_cases hm : t ∈ a.tabIds
    · simpa [step, hm, attemptInv] using h
    · simpa [step, hm] using h
  | cleanupTab t =>
    refine ⟨by simpa [step] using h.1, fun h1 => ?_⟩
    have h1b : 1 ≤ a.resolveCount := by simpa [step] using h1
    have h2 := h.2 h1b
    simp [step, h2.1, h2.2]

theorem run_inv (evs : List Ev) (a : Attempt) (h : attemptInv a) : attemptInv (run evs a) := by
  induction evs generalizing a with
  | nil => exact h
  | cons e rest ih => exact ih (step e a) (step_inv e a h)

/-- Once every alias is deregistered and the timer cleared, every further
event is a no-op on the attempt. -/
theorem step_idle (a : Attempt) (h1 : a.tabIds = []) (h2 : a.timerCleared = true)
    (e : Ev) : step e a = a := by
  obtain ⟨tabs, u, nav, hr, rc, tc⟩ := a
  simp only at h1 h2
  subst h1
  subst h2
  cases e with
  | candidate t url => cases url <;> simp [step, resolveTab]
  | navTarget src nt uu => simp [step]
  | updated t url => cases url <;> simp [step, resolveTab]
  | timeout => simp [step]
  | expectAgain t now => simp [step]
  | cleanupTab t => simp [step]

/-! ## Claim C1 -/

/-- Claim C1: one capture attempt (`attemptOnce`'s registry record)
resolves at most once over any sequence of signal/timeout events: the
completion count never exceeds 1, and as soon as it reaches 1 every alias
tab is deregistered and every further event — collaborator candidate
report, sibling-tab creation, same-tab update, or the timeout — leaves the
state unchanged. -/
theorem resolve_at_most_once (tabId delay now : Nat) (evs : List Ev) :
    (run evs (attemptInit tabId delay now)).resolveCount ≤ 1 ∧
    (1 ≤ (run evs (attemptInit tabId delay now)).resolveCount →
      (run evs (attemptInit tabId delay now)).tabIds = [] ∧
      ∀ e, step e (run evs (attemptInit tabId delay now)) =
        run evs (attemptInit tabId delay now)) := by
  have hinit : attemptInv (attemptInit tabId delay now) := by
    simp [attemptInv, attemptInit]
  have hfin := run_inv evs (attemptInit tabId delay now) hinit
  exact ⟨hfin.1, fun h1 =>
    ⟨(hfin.2 h1).1, step_idle _ (hfin.2 h1).1 (hfin.2 h1).2⟩⟩

/-- Witness for `resolve_at_most_once`: after a PDF-like candidate report
for the worker tab, the attempt has resolved and its alias registry is
empty. -/
theorem resolve_at_most_once_witness :
    (run [Ev.candidate 7 (some "a.pdf")] (attemptInit 7 1500 0)).tabIds = [] :=
  ((resolve_at_most_once 7 1500 0 [Ev.candidate 7 (some "a.pdf")]).2 (by decide)).1

/-! ## Claim C2 (corrected) -/

/-- Claim C2 as stated is false.  A third consecutive failure does not set
`nextAt` to the failure time plus `min(30000, 1000 * 2^3) = 8000`: the code
takes the `tries >= MAX_TRIES` branch, marks the job `failed` and leaves
`nextAt` untouched.  Concrete input: a job with `tries = 2` failing at time
100000. -/
theorem backoff_try3_counterexample :
    (applyFailure (Job.mk 1 Status.retry 2 (some 6000)) 100000).status = Status.failed ∧
    (applyFailure (Job.mk 1 Status.retry 2 (some 6000)) 100000).nextAt ≠
      some (100000 + min 30000 (1000 * 2 ^ 3)) := by
  decide

/-- Claim C2 amended: for a job failing repeatedly, each of the first two
failures sets `nextAt` to the failure time plus `min(30000, 1000*2^tries)`
— 2000ms for try 1 and 4000ms for try 2 — and `nextAt` strictly increases
per attempt; the third failure schedules no retry delay at all: it marks
the job `failed` and leaves `nextAt` unchanged. -/
theorem backoff_schedule (j : Job) (h : j.tries = 0) (t1 t2 t3 : Nat) (hle : t1 ≤ t2) :
    (applyFailure j t1).status = Status.retry ∧
    (applyFailure j t1).nextAt = some (t1 + 2000) ∧
    (applyFailure (applyFailure j t1) t2).status = Status.retry ∧
    (applyFailure (applyFailure j t1) t2).nextAt = some (t2 + 4000) ∧
    (applyFailure j t1).nextAt.getD 0 <
      (applyFailure (applyFailure j t1) t2).nextAt.getD 0 ∧
    (applyFailure (applyFailure (applyFailure j t1) t2) t3).status = Status.failed ∧
    (applyFailure (applyFailure (applyFailure j t1) t2) t3).nextAt =
      (applyFailure (applyFailure j t1) t2).nextAt ∧
    (∀ (jj : Job) (now : Nat), jj.tries + 1 < 3 →
      (applyFailure jj now).nextAt = some (now + min 30000 (1000 * 2 ^ (jj.tries + 1)))) := by
  refine ⟨?_, ?_, ?_, ?_, ?_, ?_, ?_, ?_⟩
  · simp [applyFailure, h]
  · simp [applyFailure, h]
  · simp [applyFailure, h]
  · simp [applyFailure, h]
  · simp [applyFailure, h]
    omega
  · simp [applyFailure, h]
  · simp [applyFailure, h]
  · intro jj now hlt
    have hno : ¬ 3 ≤ jj.tries + 1 := by omega
    simp [applyFailure, hno]

/-- Witness for `backoff_schedule` at a concrete job and failure times. -/
theorem backoff_schedule_witness :
    (applyFailure (Job.mk 9 Status.pending 0 none) 100).nextAt = some 2100 ∧
    (applyFailure (applyFailure (Job.mk 9 Status.pending 0 none) 100) 2100).nextAt =
      some 6100 :=
  ⟨(backoff_schedule (Job.mk 9 Status.pending 0 none) rfl 100 2100 5000 (by decide)).2.1,
   (backoff_schedule (Job.mk 9 Status.pending 0 none) rfl 100 2100 5000 (by decide)).2.2.2.1⟩

/-! ## Claim C3 -/

/-- Claim C3: after exactly 3 failed attempts a job has status `failed` and
`tries = 3`; it is never eligible again; the queue-level failure handler
never removes a job (length preserved); and the selection predicate never
selects a `failed` job. -/
theorem failed_terminal (j : Job) (h : j.tries = 0) (t1 t2 t3 : Nat) :
    (applyFailure (applyFailure (applyFailure j t1) t2) t3).status = Status.failed ∧
    (applyFailure (applyFailure (applyFailure j t1) t2) t3).tries = 3 ∧
    (∀ now, eligibleJob (applyFailure (applyFailure (applyFailure j t1) t2) t3) now = false) ∧
    (∀ (jobs : List Job) (jid now : Nat), (markFailure jobs jid now).length = jobs.length) ∧
    (∀ (jobs : List Job) (now : Nat) (j2 : Job),
      selectNextEligible jobs now = some j2 → j2.status ≠ Status.failed) := by
  refine ⟨?_, ?_, ?_, ?_, ?_⟩
  · simp [applyFailure, h]
  · simp [applyFailure, h]
  · intro now
    simp [eligibleJob, applyFailure, h]
  · intro jobs jid now
    unfold markFailure
    cases hidx : jobs.findIdx? (fun jb => jb.jobId == jid) with
    | none => rfl
    | some pos => simp
  · intro jobs now j2 hfind
    have hp := List.find?_some hfind
    intro hst
    simp [eligibleJob, hst] at hp

/-- Witness for `failed_terminal` at a concrete job and failure times. -/
theorem failed_terminal_witness :
    (applyFailure (applyFailure (applyFailure (Job.mk 4 Status.pending 0 none) 10) 20) 30).status =
      Status.failed :=
  (failed_terminal (Job.mk 4 Status.pending 0 none) rfl 10 20 30).1

/-! ## Claim C4 -/

/-- Claim C4: a `withLock` call that finds the record locked and fresher
than 15000ms returns without running the critical section and without
writing the lock record; in every other case (unlocked, or 15000ms old or
older) it writes `{locked:true, ts:now}`, runs the critical section, and
finishes with the release write. -/
theorem withLock_gate (now endTs : Nat) (curr : LockWrite) (body : Except String Unit) :
    (curr.locked = true → now - curr.ts < 15000 →
      withLock now endTs curr body = ([], false, Except.ok ())) ∧
    ((curr.locked = false ∨ 15000 ≤ now - curr.ts) →
      withLock now endTs curr body =
        ([LockWrite.mk true now, LockWrite.mk false endTs], true, Except.ok ())) := by
  constructor
  · intro h1 h2
    simp [withLock, h1, h2]
  · intro h
    have hcond : (curr.locked && decide (now - curr.ts < 15000)) = false := by
      rcases h with h | h
      · simp [h]
      · simp [Nat.not_lt.mpr h]
    unfold withLock
    rw [hcond]
    simp only [Bool.false_eq_true, if_false]
    cases body <;> rfl

/-- Witness for `withLock_gate`: a stale lock (held since ts 1000, now
20000) is reacquired and the critical section runs. -/
theorem withLock_gate_witness :
    withLock 20000 20500 (LockWrite.mk true 1000) (Except.ok ()) =
      ([LockWrite.mk true 20000, LockWrite.mk false 20500], true, Except.ok ()) :=
  (withLock_gate 20000 20500 (LockWrite.mk true 1000) (Except.ok ())).2 (Or.inr (by decide))

/-! ## Claim C5 -/

/-- Claim C5: `withLock` always returns normally to its caller (errors from
the critical section are caught, never propagated); whenever the critical
section ran, the last write to the lock record is the release
`{locked:false}`; and a throwing critical section produces exactly the same
lock writes and return as a successful one. -/
theorem withLock_release (now endTs : Nat) (curr : LockWrite) (body : Except String Unit) :
    (withLock now endTs curr body).2.2 = Except.ok () ∧
    ((withLock now endTs curr body).2.1 = true →
      (withLock now endTs curr body).1.getLast? = some (LockWrite.mk false endTs)) ∧
    (∀ msg, withLock now endTs curr (Except.error msg) =
      withLock now endTs curr (Except.ok ())) := by
  refine ⟨?_, ?_, ?_⟩
  · unfold withLock
    split
    · rfl
    · cases body <;> rfl
  · unfold withLock
    split
    · intro hfalse
      simp at hfalse
    · intro _
      cases body <;> rfl
  · intro msg
    unfold withLock
    split <;> rfl

/-- Witness for `withLock_release`: with the lock free and a throwing
critical section, the final lock write is the release. -/
theorem withLock_release_witness :
    (withLock 500 900 (LockWrite.mk false 0) (Except.error "boom")).1.getLast? =
      some (LockWrite.mk false 900) :=
  (withLock_release 500 900 (LockWrite.mk false 0) (Except.error "boom")).2.1 (by decide)

/-! ## Claim C6 -/

/-- Claim C6: the label queue is unique by `demoOrder` — pushing a label
whose `demoOrder` already occurs leaves the queue unchanged, and pushing
two labels with the same `demoOrder` onto a queue not yet containing it
leaves exactly one entry with that identifier. -/
theorem pushLabel_dedup :
    (∀ (q : List Label) (it : Label),
      (∃ x ∈ q, x.demoOrder = it.demoOrder) → pushLabel q it = q) ∧
    (∀ (q : List Label) (a b : Label), b.demoOrder = a.demoOrder →
      (∀ x ∈ q, x.demoOrder ≠ a.demoOrder) →
      ((pushLabel (pushLabel q a) b).filter
        (fun x => x.demoOrder == a.demoOrder)).length = 1) := by
  have hdup : ∀ (q : List Label) (it : Label),
      (∃ x ∈ q, x.demoOrder = it.demoOrder) → pushLabel q it = q := by
    intro q it ⟨x, hx, heq⟩
    unfold pushLabel
    cases hf : q.find? (fun y => y.demoOrder == it.demoOrder) with
    | some _ => rfl
    | none =>
      exact absurd (by simpa using heq) (by simpa using List.find?_eq_none.mp hf x hx)
  refine ⟨hdup, ?_⟩
  intro q a b hb hq
  have hnone : q.find? (fun y => y.demoOrder == a.demoOrder) = none :=
    List.find?_eq_none.mpr (fun x hx => by simpa using hq x hx)
  have hpush1 : pushLabel q a = q ++ [a] := by
    unfold pushLabel
    rw [hnone]
  have hpush2 : pushLabel (q ++ [a]) b = q ++ [a] := by
    apply hdup
    exact ⟨a, by simp, hb.symm⟩
  rw [hpush1, hpush2, List.filter_append]
  have hfq : q.filter (fun x => x.demoOrder == a.demoOrder) = [] :=
    List.filter_eq_nil_iff.mpr (fun x hx => by simpa using hq x hx)
  simp [hfq]

/-- Witness for `pushLabel_dedup`: a concrete duplicate push is dropped and
the two-push scenario yields a single entry. -/
theorem pushLabel_dedup_witness :
    pushLabel [Label.mk "77" none "u1"] (Label.mk "77" none "u2") =
      [Label.mk "77" none "u1"] ∧
    ((pushLabel (pushLabel [] (Label.mk "77" none "u1")) (Label.mk "77" none "u2")).filter
      (fun x => x.demoOrder == ("77" : String))).length = 1 :=
  ⟨pushLabel_dedup.1 [Label.mk "77" none "u1"] (Label.mk "77" none "u2")
      ⟨Label.mk "77" none "u1", by decide, rfl⟩,
   pushLabel_dedup.2 [] (Label.mk "77" none "u2") (Label.mk "77" none "u1") rfl
      (by intro x hx; simp at hx)⟩

/-! ## Claim C7 -/

/-- A successful `find?` splits the list at the first satisfying element:
everything before it fails the predicate. -/
theorem find_first_split {α : Type} (p : α → Bool) :
    ∀ (l : List α) (a : α), l.find? p = some a →
      ∃ pre post, l = pre ++ a :: post ∧ ∀ x ∈ pre, p x = false := by
  intro l
  induction l with
  | nil => intro a h; simp at h
  | cons hd tl ih =>
    intro a h
    by_cases hp : p hd = true
    · rw [List.find?_cons_of_pos tl hp] at h
      obtain rfl : hd = a := by injection h
      exact ⟨[], tl, rfl, by simp⟩
    · rw [List.find?_cons_of_neg tl hp] at h
      obtain ⟨pre, post, heq, hpre⟩ := ih a h
      refine ⟨hd :: pre, post, by rw [heq]; rfl, ?_⟩
      intro x hx
      rcases List.mem_cons.mp hx with rfl | hx2
      · exact Bool.eq_false_iff.mpr hp
      · exact hpre x hx2

/-- Claim C7: the processor selects the first job in queue order with
status `pending` or `retry` and `nextAt` (0 when absent) at most `now`;
it selects none exactly when no job qualifies, in which case the loop
stops. -/
theorem selectNextEligible_spec (jobs : List Job) (now : Nat) :
    (∀ j, selectNextEligible jobs now = some j →
      eligibleJob j now = true ∧
      ∃ pre post, jobs = pre ++ j :: post ∧ ∀ x ∈ pre, eligibleJob x now = false) ∧
    (selectNextEligible jobs now = none ↔ ∀ j ∈ jobs, eligibleJob j now = false) ∧
    ((∀ j ∈ jobs, eligibleJob j now = false) → processorChoice jobs now = LoopAct.stop) := by
  refine ⟨?_, ?_, ?_⟩
  · intro j hj
    have hj2 : jobs.find? (fun jb => eligibleJob jb now) = some j := hj
    have hp := List.find?_some hj2
    exact ⟨by simpa using hp, find_first_split (fun jb => eligibleJob jb now) jobs j hj2⟩
  · unfold selectNextEligible
    rw [List.find?_eq_none]
    constructor
    · intro h j hj
      exact Bool.eq_false_iff.mpr (h j hj)
    · intro h j hj
      simp [h j hj]
  · intro h
    unfold processorChoice selectNextEligible
    rw [List.find?_eq_none.mpr (fun j hj => by simp [h j hj])]

/-- Witness for `selectNextEligible_spec`: a queue holding only a `failed`
job and a not-yet-due `retry` job selects nothing and the loop stops. -/
theorem selectNextEligible_spec_witness :
    processorChoice [Job.mk 1 Status.failed 3 none, Job.mk 2 Status.retry 1 (some 900)] 100 =
      LoopAct.stop :=
  (selectNextEligible_spec
      [Job.mk 1 Status.failed 3 none, Job.mk 2 Status.retry 1 (some 900)] 100).2.2
    (by decide)

/-! ## Claim C8 -/

/-- The attempt trail of `captureLoop` is an initial segment of the
deadline list: attempts run in the given order with the given deadlines. -/
theorem captureLoop_trail (o : Nat → AttemptResult) :
    ∀ ds : List Nat, ∃ k, (captureLoop o ds).2 = ds.take k := by
  intro ds
  induction ds with
  | nil => exact ⟨0, rfl⟩
  | cons d rest ih =>
    obtain ⟨k, hk⟩ := ih
    unfold captureLoop
    cases hu : (o d).url with
    | some u => exact ⟨1, by simp [hu]⟩
    | none =>
      cases hn : (o d).navigation with
      | true => exact ⟨1, by simp [hu, hn]⟩
      | false => exact ⟨k + 1, by simp [hu, hn, hk]⟩

/-- If every attempt before `d` yields no URL and no navigation, and the
attempt at `d` yields a URL, the loop returns that URL and stops at `d`. -/
theorem captureLoop_url (o : Nat → AttemptResult) :
    ∀ (pre : List Nat) (d : Nat) (rest : List Nat) (u : String) (nav : Bool),
      (∀ x ∈ pre, o x = AttemptResult.mk none false) →
      o d = AttemptResult.mk (some u) nav →
      captureLoop o (pre ++ d :: rest) = (some u, pre ++ [d]) := by
  intro pre
  induction pre with
  | nil =>
    intro d rest u nav _ hd
    simp [captureLoop, hd]
  | cons hd0 tl ih =>
    intro d rest u nav hpre hd
    have h0 : o hd0 = AttemptResult.mk none false := hpre hd0 (by simp)
    have hrec := ih d rest u nav (fun x hx => hpre x (by simp [hx])) hd
    simp [captureLoop, h0, hrec]

/-- If every attempt before `d` yields no URL and no navigation, and the
attempt at `d` reports navigation without a URL, the loop returns no URL
immediately after `d` (the remaining attempts never run). -/
theorem captureLoop_nav (o : Nat → AttemptResult) :
    ∀ (pre : List Nat) (d : Nat) (rest : List Nat),
      (∀ x ∈ pre, o x = AttemptResult.mk none false) →
      o d = AttemptResult.mk none true →
      captureLoop o (pre ++ d :: rest) = (none, pre ++ [d]) := by
  intro pre
  induction pre with
  | nil =>
    intro d rest _ hd
    simp [captureLoop, hd]
  | cons hd0 tl ih =>
    intro d rest hpre hd
    have h0 : o hd0 = AttemptResult.mk none false := hpre hd0 (by simp)
    have hrec := ih d rest (fun x hx => hpre x (by simp [hx])) hd
    simp [captureLoop, h0, hrec]

/-- If every attempt yields no URL and no navigation, the loop runs every
deadline and returns no URL. -/
theorem captureLoop_exhaust (o : Nat → AttemptResult) :
    ∀ ds : List Nat, (∀ x ∈ ds, o x = AttemptResult.mk none false) →
      captureLoop o ds = (none, ds) := by
  intro ds
  induction ds with
  | nil => intro _; rfl
  | cons d rest ih =>
    intro h
    have h0 : o d = AttemptResult.mk none false := h d (by simp)
    have hrec := ih (fun x hx => h x (by simp [hx]))
    simp [captureLoop, h0, hrec]

/-- Claim C8: `openLabelAndCapturePdf` runs attempts with deadlines exactly
1500, 3000, 6000, 10000, 15000 in that order (its attempt trail is an
initial segment of that list, and the whole list when nothing ever
happens), returns the first captured URL, short-circuits with no URL as
soon as an attempt reports navigation without a URL, and a failing
collaborator call resolves its attempt as navigation-with-no-URL. -/
theorem capture_sequence (oracle : Nat → AttemptResult) :
    (∃ k, (openLabelAndCapturePdf oracle).2 = delaysList.take k) ∧
    (∀ (pre : List Nat) (d : Nat) (rest : List Nat) (u : String) (nav : Bool),
      delaysList = pre ++ d :: rest →
      (∀ x ∈ pre, oracle x = AttemptResult.mk none false) →
      oracle d = AttemptResult.mk (some u) nav →
      openLabelAndCapturePdf oracle = (some u, pre ++ [d])) ∧
    (∀ (pre : List Nat) (d : Nat) (rest : List Nat),
      delaysList = pre ++ d :: rest →
      (∀ x ∈ pre, oracle x = AttemptResult.mk none false) →
      oracle d = AttemptResult.mk none true →
      openLabelAndCapturePdf oracle = (none, pre ++ [d])) ∧
    ((∀ x ∈ delaysList, oracle x = AttemptResult.mk none false) →
      openLabelAndCapturePdf oracle = (none, [1500, 3000, 6000, 10000, 15000])) ∧
    (∀ signal, attemptOnce true signal = AttemptResult.mk none true) := by
  refine ⟨captureLoop_trail oracle delaysList, ?_, ?_, ?_, ?_⟩
  · intro pre d rest u nav heq hpre hd
    unfold openLabelAndCapturePdf
    rw [heq]
    exact captureLoop_url oracle pre d rest u nav hpre hd
  · intro pre d rest heq hpre hd
    unfold openLabelAndCapturePdf
    rw [heq]
    exact captureLoop_nav oracle pre d rest hpre hd
  · intro h
    exact captureLoop_exhaust oracle delaysList h
  · intro signal
    rfl

/-- Witness for `capture_sequence`: an oracle whose very first attempt
reports navigation-without-URL (e.g. the collaborator call failed) makes
the sequence stop after the 1500ms attempt with no URL. -/
theorem capture_sequence_witness :
    openLabelAndCapturePdf (fun _ => AttemptResult.mk none true) = (none, [1500]) :=
  (capture_sequence (fun _ => AttemptResult.mk none true)).2.2.1
    [] 1500 [3000, 6000, 10000, 15000] rfl (by simp) rfl

/-! ## Claim C9 -/

/-- Claim C9: batch print is best-effort — per-item fetch failures are
collected without aborting; with zero successful fetches the operation
aborts and leaves the label queue untouched; otherwise the merged document
is the concatenation of every successfully fetched PDF's full page
sequence in queue order, the failures are still recorded, and the queue is
cleared; and the queue ever changing implies the print render path was
invoked. -/
theorem printAllMerged_spec (fetch : String → Option (List Nat)) (renderOk : Bool)
    (queue : List Label) :
    (queue.filterMap (fun it => fetch it.url) = [] →
      (printAllMerged fetch renderOk queue).mergedPages = none ∧
      (printAllMerged fetch renderOk queue).printInvoked = false ∧
      (printAllMerged fetch renderOk queue).queueAfter = queue) ∧
    (queue.filterMap (fun it => fetch it.url) ≠ [] → renderOk = true →
      printAllMerged fetch renderOk queue =
        PrintResult.mk (some (queue.filterMap (fun it => fetch it.url)).flatten)
          (queue.filterMap (fun it => if (fetch it.url).isNone then some it.demoOrder else none))
          true []) ∧
    ((printAllMerged fetch renderOk queue).queueAfter ≠ queue →
      (printAllMerged fetch renderOk queue).printInvoked = true) := by
  unfold printAllMerged
  by_cases hq : queue.isEmpty
  · have hqe : queue = [] := List.isEmpty_iff.mp hq
    subst hqe
    simp
  · simp only [hq, if_false]
    by_cases hb : (queue.filterMap (fun it => fetch it.url)).isEmpty
    · have hbe := List.isEmpty_iff.mp hb
      simp only [hb, if_true]
      refine ⟨fun _ => ⟨rfl, rfl, rfl⟩, fun hne _ => absurd hbe hne, fun hne => absurd rfl hne⟩
    · have hbn : queue.filterMap (fun it => fetch it.url) ≠ [] := by
        intro h
        rw [h] at hb
        exact hb rfl
      simp only [hb, if_false]
      cases renderOk with
      | true =>
        refine ⟨fun h => absurd h hbn, fun _ _ => by simp, fun _ => rfl⟩
      | false =>
        refine ⟨fun h => absurd h hbn, fun _ h => by simp at h, fun hne => absurd rfl hne⟩

/-- Witness for `printAllMerged_spec`: the spec scenario — labels A and B,
fetching A yields a 2-page PDF, fetching B fails — merges exactly A's
pages, records B's failure, and clears the queue. -/
theorem printAllMerged_spec_witness :
    printAllMerged (fun u => if u == "urlA" then some [1, 2] else none) true
        [Label.mk "A" none "urlA", Label.mk "B" none "urlB"] =
      PrintResult.mk (some [1, 2]) ["B"] true [] :=
  ((printAllMerged_spec (fun u => if u == "urlA" then some [1, 2] else none) true
        [Label.mk "A" none "urlA", Label.mk "B" none "urlB"]).2.1
      (by decide) rfl).trans (by decide)

/-! ## Claim C10 -/

/-- Claim C10: the `EXPECT_PDF` handler stores a deadline 45000ms ahead in
the `until` field (both when creating a record and when refreshing one),
but no handler ever reads it: stepping any event preserves agreement of
states that differ only in `until`; the timeout event is a no-op for such
an attempt (it has no timer); and a registered tab is only ever
deregistered by a PDF-like URL signal hitting an alias of the attempt or
by a later `attemptOnce` cleanup of that tab — never by the passage of
time. -/
theorem until_unread (t n : Nat) :
    (expectInit t n).untilTs = n + 45000 ∧
    (∀ (a : Attempt) (x now : Nat), x ∈ a.tabIds →
      (step (Ev.expectAgain x now) a).untilTs = now + 45000) ∧
    (∀ (a b : Attempt) (e : Ev), sameModUntil a b → sameModUntil (step e a) (step e b)) ∧
    (∀ a : Attempt, a.timerCleared = true → step Ev.timeout a = a) ∧
    (∀ (a : Attempt) (e : Ev) (x : Nat), a.timerCleared = true → x ∈ a.tabIds →
      x ∉ (step e a).tabIds → e = Ev.cleanupTab x ∨ removesByPdf e a) := by
  refine ⟨rfl, ?_, ?_, ?_, ?_⟩
  · intro a x now hx
    simp [step, hx]
  · intro a b e hab
    obtain ⟨tA, uA, nA, hA, rA, cA⟩ := a
    obtain ⟨tB, uB, nB, hB, rB, cB⟩ := b
    simp only [sameModUntil, attemptCore, Prod.mk.injEq] at hab
    obtain ⟨h1, h2, h3, h4, h5⟩ := hab
    subst h1; subst h2; subst h3; subst h4; subst h5
    cases e with
    | candidate tab url =>
      cases url with
      | none =>
        by_cases hm : tab ∈ tA <;> simp [step, hm, sameModUntil, attemptCore]
      | some u =>
        by_cases hm : tab ∈ tA <;> by_cases hp : looksLikePdf u = true <;>
          simp [step, resolveTab, hm, hp, sameModUntil, attemptCore]
    | navTarget src nt u =>
      by_cases hm : src ∈ tA
      · by_cases hp : looksLikePdf u = true <;>
          by_cases hnt : nt ∈ tA <;>
            simp [step, resolveTab, hm, hp, hnt, sameModUntil, attemptCore]
      · simp [step, hm, sameModUntil, attemptCore]
    | updated tab url =>
      cases url with
      | none =>
        by_cases hm : tab ∈ tA <;> simp [step, hm, sameModUntil, attemptCore]
      | some u =>
        by_cases hm : tab ∈ tA <;> by_cases hp : looksLikePdf u = true <;>
          simp [step, resolveTab, hm, hp, sameModUntil, attemptCore]
    | timeout =>
      by_cases htc : cA = true <;> simp [step, htc, sameModUntil, attemptCore]
    | expectAgain tab now =>
      by_cases hm : tab ∈ tA <;> simp [step, hm, sameModUntil, attemptCore]
    | cleanupTab tab =>
      simp [step, sameModUntil, attemptCore]
  · intro a htc
    simp [step, htc]
  · intro a e x htc hx hnx
    cases e with
    | candidate tab url =>
      cases url with
      | none =>
        exfalso
        apply hnx
        by_cases hm : tab ∈ a.tabIds <;> simpa [step, hm] using hx
      | some u =>
        by_cases hp : looksLikePdf u = true
        · by_cases hm : tab ∈ a.tabIds
          · exact Or.inr ⟨hm, hp⟩
          · exact absurd (by simpa [step, resolveTab, hm, hp] using hx) hnx
        · exfalso
          apply hnx
          by_cases hm : tab ∈ a.tabIds <;> simpa [step, hm, hp] using hx
    | navTarget src nt u =>
      by_cases hm : src ∈ a.tabIds
      · by_cases hp : looksLikePdf u = true
        · exact Or.inr ⟨hm, hp⟩
        · exfalso
          apply hnx
          by_cases hnt : nt ∈ a.tabIds <;> simp [step, hm, hp, hnt, hx]
      · exact absurd (by simpa [step, hm] using hx) hnx
    | updated tab url =>
      cases url with
      | none =>
        exfalso
        apply hnx
        by_cases hm : tab ∈ a.tabIds <;> simpa [step, hm] using hx
      | some u =>
        by_cases hp : looksLikePdf u = true
        · by_cases hm : tab ∈ a.tabIds
          · exact Or.inr ⟨hm, hp⟩
          · exact absurd (by simpa [step, resolveTab, hm, hp] using hx) hnx
        · exfalso
          apply hnx
          by_cases hm : tab ∈ a.tabIds <;> simpa [step, hm, hp] using hx
    | timeout =>
      exact absurd (by simpa [step, htc] using hx) hnx
    | expectAgain tab now =>
      exfalso
      apply hnx
      by_cases hm : tab ∈ a.tabIds <;> simpa [step, hm] using hx
    | cleanupTab tab =>
      left
      have hxy : x = tab := by
        by_contra hne
        apply hnx
        simp [step, List.mem_filter, hx]
        simpa using hne
      rw [hxy]

/-- Witness for `until_unread`: a concrete armed attempt stores deadline
45100, outlives that deadline under a non-matching update event, and is
deregistered by a later cleanup of its tab. -/
theorem until_unread_witness :
    Ev.cleanupTab 5 = Ev.cleanupTab 5 ∨ removesByPdf (Ev.cleanupTab 5) (expectInit 5 100) :=
  (until_unread 5 100).2.2.2.2 (expectInit 5 100) (Ev.cleanupTab 5) 5 rfl
    (by decide) (by decide)
